import Mathlib

/-!
# Verification of the Multilateration engine

Shallow embedding of the Go repository `Multilateration` (packages
`internal/common`, `internal/multilateration`, `internal/simulation`)
over exact real arithmetic, together with proofs about the embedded
definitions.  Go `float64` values are modelled as real numbers, Go
slices of `float64` as `List ℝ`, Go `(value, error)` returns as pairs
with an `Option` error component, and calls to the process-wide random
source as explicitly passed draw values (a draw parameter stands for
one output of `rand.Float64` / `rand.NormFloat64`).
-/

open Matrix

set_option linter.dupNamespace false

namespace Common

/-- `common.Vector`: a point or vector in n-dimensional space
(`type Vector []float64`). -/
abbrev Vec := List ℝ

/-- `common.NewVector`: zero vector of a given dimension
(`make(Vector, dimension)`). -/
def NewVector (dimension : ℕ) : Vec := List.replicate dimension 0

/-- `Vector.Dimension`: `len(v)`. -/
def Dimension (v : Vec) : ℕ := v.length

/-- Sum of squares of a list, the accumulation pattern used by
`Vector.Distance` and `Vector.NormSq`. -/
def sumSq (l : List ℝ) : ℝ := (l.map (fun x => x * x)).sum

/-- `Vector.NormSq`: squared Euclidean norm (`sumOfSquares += val*val`). -/
def NormSq (v : Vec) : ℝ := sumSq v

/-- `Vector.Distance`: Euclidean distance; `none` models the dimension
mismatch error return. -/
noncomputable def Distance (v other : Vec) : Option ℝ :=
  if v.length = other.length then
    some (Real.sqrt (sumSq (List.zipWith (fun a b => a - b) v other)))
  else none

/-- `Vector.Add`: element-wise sum; `none` models the dimension mismatch
error return. -/
def Add (v other : Vec) : Option Vec :=
  if v.length = other.length then some (List.zipWith (fun a b => a + b) v other)
  else none

/-- `Vector.Subtract`: element-wise difference; `none` models the
dimension mismatch error return. -/
def Subtract (v other : Vec) : Option Vec :=
  if v.length = other.length then some (List.zipWith (fun a b => a - b) v other)
  else none

/-- `Vector.MultiplyByScalar`. -/
def MultiplyByScalar (v : Vec) (scalar : ℝ) : Vec := v.map (fun x => x * scalar)

/-- `Vector.Clone`: in the pure value model a deep copy is the value
itself (see the store-based model below for the aliasing claims). -/
def Clone (v : Vec) : Vec := v

end Common

namespace Multilateration

/-- `multilateration.Measurement`: a single distance measurement from a
sensor. -/
structure Measurement where
  sensorPosition : Common.Vec
  distance : ℝ

instance : Inhabited Measurement := ⟨⟨[], 0⟩⟩

/-- `multilateration.Solution`: estimated position and quality measure.
`position = none` models a `nil` `common.Vector`. -/
structure Solution where
  position : Option Common.Vec
  residualError : ℝ

/-- The zero value `var emptySolution Solution` returned by
`SolveLeastSquares` on every error path: `nil` position and zero
residual. -/
def emptySolution : Solution := ⟨none, 0⟩

/-- The sentinel `Solution{Position: nil, ResidualError: -1}` stored by
the simulation when no estimate is available. -/
def sentinelSolution : Solution := ⟨none, -1⟩

/-- The error cases of `SolveLeastSquares`, in the order the Go code
can produce them. -/
inductive SolverError where
  | insufficientMeasurements
  | dimensionMismatch
  | solveFailure
deriving DecidableEq

/-- The reference measurement: `measurements[numMeasurements-1]`, i.e.
the last measurement of the input sequence. -/
def refMeasurement (measurements : List Measurement) : Measurement :=
  measurements.getD (measurements.length - 1) default

/-- `if refDist < 0 { refDist = 0 }`: the non-negativity clamp applied
to each distance before squaring. -/
noncomputable def clampDist (d : ℝ) : ℝ := if d < 0 then 0 else d

/-- Row `i` of the matrix `A`: `2 * (S_k - S_i)` where `S_k` is the
reference (last) sensor position, assembled into `aData` by the loop of
`SolveLeastSquares`.  Out-of-range indices read the Go default `0`;
the theorems below only use this matrix under the length hypotheses
that make every index in range (as the Go code does). -/
noncomputable def matrixA (measurements : List Measurement) (dimension : ℕ) :
    Matrix (Fin (measurements.length - 1)) (Fin dimension) ℝ :=
  Matrix.of fun i j =>
    2 * ((refMeasurement measurements).sensorPosition.getD j 0 -
      (measurements.getD i default).sensorPosition.getD j 0)

/-- Entry `i` of the vector `b`:
`d_i^2 - d_k^2 - ||S_i||^2 + ||S_k||^2` with the distances clamped to
non-negative first, exactly as the loop of `SolveLeastSquares` computes
`bData[i]`. -/
noncomputable def vectorB (measurements : List Measurement) :
    Fin (measurements.length - 1) → ℝ := fun i =>
  let refM := refMeasurement measurements
  let mi := measurements.getD i default
  clampDist mi.distance * clampDist mi.distance -
    clampDist refM.distance * clampDist refM.distance -
    Common.NormSq mi.sensorPosition + Common.NormSq refM.sensorPosition

/-- The dimension-consistency condition checked (via
`refSensorPos.Subtract(sensorPos)`) while assembling `A`: every sensor
position has the same length as the reference sensor position. -/
def dimsConsistent (measurements : List Measurement) : Bool :=
  measurements.all fun mi =>
    mi.sensorPosition.length =
      (refMeasurement measurements).sensorPosition.length

/-- The least-squares minimizer the QR solve produces in exact
arithmetic: the vector `x` with `qr.SolveVecTo(&x, false, b)`, equal to
`(Aᵀ A)⁻¹ Aᵀ b` when `A` has full column rank. -/
noncomputable def lsEstimate (measurements : List Measurement)
    (dimension : ℕ) : Fin dimension → ℝ :=
  ((matrixA measurements dimension)ᵀ * matrixA measurements dimension)⁻¹ *ᵥ
    ((matrixA measurements dimension)ᵀ *ᵥ vectorB measurements)

/-- The residual computation of `SolveLeastSquares`:
`residualVec = b - A*x`, `residualNorm = blas64.Nrm2(residualVec)`, and
the normalization by `sqrt(numEquations)`. -/
noncomputable def normalizedResidual (measurements : List Measurement)
    (dimension : ℕ) : ℝ :=
  Real.sqrt (∑ i, ((vectorB measurements -
      matrixA measurements dimension *ᵥ lsEstimate measurements dimension)
        i) ^ 2) /
    Real.sqrt ((measurements.length - 1 : ℕ) : ℝ)

/-- `multilateration.SolveLeastSquares`, read in exact real arithmetic.

The gonum QR factorization solves `min ‖Ax - b‖₂`; in exact arithmetic
`qr.SolveVecTo` produces (uniquely) the least-squares minimizer exactly
when `R` is nonsingular, i.e. when `A` has full column rank, i.e. when
`det (Aᵀ A) ≠ 0`; in that case the minimizer is `(Aᵀ A)⁻¹ Aᵀ b`.  The
failing branch (`err != nil` from `qr.SolveVecTo`, mapped to
`solveFailure`) is exactly `det (Aᵀ A) = 0`.  The returned position is
the extraction loop `resultVector[i] = x.AtVec(i)`. -/
noncomputable def SolveLeastSquares (measurements : List Measurement)
    (dimension : ℕ) : Solution × Option SolverError :=
  if measurements.length < dimension + 1 then
    (emptySolution, some .insufficientMeasurements)
  else if ¬ dimsConsistent measurements then
    (emptySolution, some .dimensionMismatch)
  else if ((matrixA measurements dimension)ᵀ *
      matrixA measurements dimension).det = 0 then
    (emptySolution, some .solveFailure)
  else
    ({ position := some (List.ofFn fun j => lsEstimate measurements dimension j),
       residualError := normalizedResidual measurements dimension }, none)

/-- `multilateration.CalculateLocalizationError`: Euclidean distance
between true and estimated position; `none` models the error returns
(nil vector, empty vector, or dimension mismatch inside `Distance`). -/
noncomputable def CalculateLocalizationError
    (truePosition estimatedPosition : Option Common.Vec) : Option ℝ :=
  match truePosition, estimatedPosition with
  | some t, some e =>
    if t.length = 0 ∨ e.length = 0 then none else Common.Distance t e
  | _, _ => none

end Multilateration

namespace Simulation

/-- `simulation.NoNoise`: the identity noise function. -/
def NoNoise (trueDistance : ℝ) : ℝ := trueDistance

/-- `simulation.GaussianNoise(stdDev)`: adds `rand.NormFloat64() * stdDev`
to the true distance; `draw` is the explicit output of
`rand.NormFloat64()`, and the constructor clamps a negative `stdDev`
to 0. -/
noncomputable def GaussianNoise (stdDev draw trueDistance : ℝ) : ℝ :=
  trueDistance + draw * (if stdDev < 0 then 0 else stdDev)

/-- `simulation.UniformNoise(maxDelta)`: adds
`(rand.Float64()*2 - 1) * maxDelta`; `draw` is the explicit output of
`rand.Float64()`, and the constructor clamps a negative `maxDelta`
to 0. -/
noncomputable def UniformNoise (maxDelta draw trueDistance : ℝ) : ℝ :=
  trueDistance + (draw * 2 - 1) * (if maxDelta < 0 then 0 else maxDelta)

/-- `simulation.PercentageNoise(percentage)`: adds
`(rand.Float64()*2 - 1) * (trueDistance * percentage)`; `draw` is the
explicit output of `rand.Float64()`, and the constructor clamps a
negative `percentage` to 0. -/
noncomputable def PercentageNoise (percentage draw trueDistance : ℝ) : ℝ :=
  trueDistance +
    (draw * 2 - 1) *
      (trueDistance * (if percentage < 0 then 0 else percentage))

/-- `simulation.Sensor`: id, immutable position, detection radius, and
optional noise function (`noiseFunc == nil` modelled by `none`).  The
uuid-generated id is a model parameter. -/
structure Sensor where
  id : String
  position : Common.Vec
  detectionRadius : ℝ
  noiseFunc : Option (ℝ → ℝ)

/-- `Sensor.MeasureDistance`: true distance to the target position
(`none` models the dimension-mismatch error return); out of range when
`detectionRadius > 0` and the true distance exceeds it; otherwise the
noise function is applied and the result clamped to be non-negative. -/
noncomputable def Sensor.MeasureDistance (s : Sensor)
    (targetPos : Common.Vec) : Option (ℝ × Bool) :=
  match Common.Distance s.position targetPos with
  | none => none
  | some trueDist =>
    if s.detectionRadius > 0 ∧ trueDist > s.detectionRadius then
      some (0, false)
    else
      let noisyDist := match s.noiseFunc with
        | none => trueDist
        | some f => f trueDist
      some (if noisyDist < 0 then 0 else noisyDist, true)

/-- `simulation.Target`: id, mutable position and velocity.  The
uuid-generated id is a model parameter. -/
structure Target where
  id : String
  position : Common.Vec
  velocity : Common.Vec

/-- `simulation.NewTarget`: clones the given position and starts with
the zero velocity of the same dimension. -/
def NewTarget (id : String) (pos : Common.Vec) : Target :=
  { id := id, position := Common.Clone pos,
    velocity := Common.NewVector pos.length }

/-- Step 1 of `Target.Update`: perturb each velocity component by
`(rand.Float64()*2 - 1) * accelerationScale * deltaTime` with
`accelerationScale = 5.0`; `draws i` is the explicit output of the
`i`-th `rand.Float64()` call.  The Go loop indexes `t.velocity[i]` for
`i < len(t.position)` (the two lengths agree by `NewTarget`); the
model reads out-of-range indices as 0. -/
noncomputable def Target.perturbedVelocity (t : Target) (deltaTime : ℝ)
    (draws : ℕ → ℝ) : Common.Vec :=
  List.ofFn fun i : Fin t.position.length =>
    t.velocity.getD i 0 + (draws i * 2 - 1) * 5.0 * deltaTime

/-- Step 2 of `Target.Update`: if the speed exceeds `maxSpeed = 10.0`,
rescale the velocity by `maxSpeed / sqrt(currentSpeedSq)`. -/
noncomputable def Target.limitedVelocity (t : Target) (deltaTime : ℝ)
    (draws : ℕ → ℝ) : Common.Vec :=
  let v1 := t.perturbedVelocity deltaTime draws
  if Common.sumSq v1 > 10.0 * 10.0 then
    Common.MultiplyByScalar v1 (10.0 / Real.sqrt (Common.sumSq v1))
  else v1

/-- Step 3 of `Target.Update`: integrate
`newPos = position + velocity * deltaTime`. -/
noncomputable def Target.integratedPosition (t : Target) (deltaTime : ℝ)
    (draws : ℕ → ℝ) : Common.Vec :=
  List.zipWith (fun a b => a + b) t.position
    (Common.MultiplyByScalar (t.limitedVelocity deltaTime draws) deltaTime)

/-- `Target.Update`: the bounded random walk — perturb the velocity,
limit the speed, integrate the position, then reflect each axis that
left its `[minBound, maxBound]` interval and reverse-and-dampen that
axis's velocity component by `-0.8`.  An invalid bounds length makes
the call a no-op.  Under the `NewTarget` invariant
(`len(velocity) = len(position)`) the `t.position.Add(deltaPos)` error
branch of the Go code is unreachable, so it is not modelled. -/
noncomputable def Target.Update (t : Target) (deltaTime : ℝ)
    (bounds : List ℝ) (draws : ℕ → ℝ) : Target :=
  let dim := t.position.length
  if bounds.length ≠ dim * 2 then t
  else
    let v2 := t.limitedVelocity deltaTime draws
    let newPos := t.integratedPosition deltaTime draws
    let bounced := List.ofFn fun i : Fin dim =>
      let minBound := bounds.getD (i * 2) 0
      let maxBound := bounds.getD (i * 2 + 1) 0
      let p := newPos.getD i 0
      let v := v2.getD i 0
      if p < minBound then (minBound + (minBound - p), v * (-0.8))
      else if p > maxBound then (maxBound - (p - maxBound), v * (-0.8))
      else (p, v)
    { t with position := bounced.map Prod.fst,
             velocity := bounced.map Prod.snd }

/-- `simulation.SimulationObject`: the interface implemented by
`*Sensor` and `*Target`. -/
inductive SimulationObject where
  | sensor (s : Sensor)
  | target (t : Target)

/-- `SimulationObject.GetID`. -/
def SimulationObject.GetID : SimulationObject → String
  | .sensor s => s.id
  | .target t => t.id

/-- `SimulationObject.GetPosition` (both implementations return a clone;
in the pure value model the clone is the value itself). -/
def SimulationObject.GetPosition : SimulationObject → Common.Vec
  | .sensor s => Common.Clone s.position
  | .target t => Common.Clone t.position

/-- `SimulationObject.Update`: a no-op for sensors, the random walk for
targets. -/
noncomputable def SimulationObject.Update (o : SimulationObject)
    (deltaTime : ℝ) (bounds : List ℝ) (draws : ℕ → ℝ) : SimulationObject :=
  match o with
  | .sensor s => .sensor s
  | .target t => .target (t.Update deltaTime bounds draws)

/-- `simulation.Simulation`: the engine state.  The Go `objects` map and
the `sensors`/`targets` index maps alias the same heap objects, so the
model keeps the single `objects` collection and derives the two index
views; `lastEstimates`/`lastErrors` are modelled as partial maps
(`none` = key absent). -/
structure Simulation where
  dimension : ℕ
  bounds : List ℝ
  objects : List SimulationObject
  simulationTime : ℝ
  tickDuration : ℝ
  lastEstimates : String → Option Multilateration.Solution
  lastErrors : String → Option ℝ

/-- `simulation.NewSimulation`: rejects `len(bounds) != dimension*2`
only when `dimension > 0`, then rejects `dimension < 0`; every other
input constructs the empty engine.  `none` models the
`ConfigurationError` return. -/
def NewSimulation (dimension : ℤ) (bounds : List ℝ) (tickDuration : ℝ) :
    Option Simulation :=
  if (bounds.length : ℤ) ≠ dimension * 2 ∧ dimension > 0 then none
  else if dimension < 0 then none
  else some
    { dimension := dimension.toNat
      bounds := bounds
      objects := []
      simulationTime := 0
      tickDuration := tickDuration
      lastEstimates := fun _ => none
      lastErrors := fun _ => none }

/-- The sensor case of a `SimulationObject`, used to derive the
`sensors` index map. -/
def SimulationObject.asSensor : SimulationObject → Option Sensor
  | .sensor sen => some sen
  | .target _ => none

/-- The target case of a `SimulationObject`, used to derive the
`targets` index map. -/
def SimulationObject.asTarget : SimulationObject → Option Target
  | .sensor _ => none
  | .target tar => some tar

/-- The `sensors` index view of the `objects` collection. -/
def Simulation.sensors (s : Simulation) : List Sensor :=
  s.objects.filterMap SimulationObject.asSensor

/-- The `targets` index view of the `objects` collection. -/
def Simulation.targets (s : Simulation) : List Target :=
  s.objects.filterMap SimulationObject.asTarget

/-- Map write `m[k] = v` for the partial-map model of
`lastEstimates` / `lastErrors`. -/
def mapSet {α : Type} (m : String → Option α) (k : String) (v : α) :
    String → Option α :=
  fun id => if id = k then some v else m id

/-- `Simulation.AddObject`: rejects a dimension mismatch, then a
duplicate id; a successful add appends to `objects` and, for a target,
initializes its `lastEstimates` entry to the sentinel solution and its
`lastErrors` entry to -1.  `none` models the error return (the engine
is unchanged). -/
def Simulation.AddObject (s : Simulation) (obj : SimulationObject) :
    Option Simulation :=
  if obj.GetPosition.length ≠ s.dimension then none
  else if s.objects.any fun o => o.GetID = obj.GetID then none
  else match obj with
    | .sensor _ => some { s with objects := s.objects ++ [obj] }
    | .target t => some
        { s with
          objects := s.objects ++ [obj]
          lastEstimates := mapSet s.lastEstimates t.id
            Multilateration.sentinelSolution
          lastErrors := mapSet s.lastErrors t.id (-1) }

/-- A sequence of `AddObject` calls by a caller that keeps the engine
unchanged whenever an add fails (as the Go error return leaves it). -/
def Simulation.addAll (s : Simulation) (objs : List SimulationObject) :
    Simulation :=
  objs.foldl (fun st obj => (st.AddObject obj).getD st) s

/-- `Simulation.GetLastEstimate`: `sol, ok := s.lastEstimates[targetID]`;
`some sol` models `ok = true`. -/
def Simulation.GetLastEstimate (s : Simulation) (targetID : String) :
    Option Multilateration.Solution :=
  s.lastEstimates targetID

/-- `Simulation.GetLastLocalizationError`. -/
def Simulation.GetLastLocalizationError (s : Simulation)
    (targetID : String) : Option ℝ :=
  s.lastErrors targetID

/-- The measurement-collection loop of `Simulation.Step` for one target:
every in-range sensor contributes `{sensorPosition, distance}`;
measurement errors and out-of-range sensors are skipped. -/
noncomputable def collectMeasurements (sensors : List Sensor)
    (tar : Target) : List Multilateration.Measurement :=
  sensors.filterMap fun sen =>
    match sen.MeasureDistance tar.position with
    | some (dist, true) => some ⟨Common.Clone sen.position, dist⟩
    | _ => none

/-- The values `Step` stores for one target: on `count ≥ dimension+1` it
invokes the solver and, on success, stores the solution together with
`CalculateLocalizationError` of the true position (or -1 when that
fails); on solver failure, or without invoking the solver when
`count < dimension+1`, it stores the sentinel pair. -/
noncomputable def targetOutcome (dimension : ℕ) (sensors : List Sensor)
    (tar : Target) : Multilateration.Solution × ℝ :=
  if (collectMeasurements sensors tar).length ≥ dimension + 1 then
    match Multilateration.SolveLeastSquares (collectMeasurements sensors tar)
      dimension with
    | (solution, none) =>
      (solution,
        match Multilateration.CalculateLocalizationError
          (some (Common.Clone tar.position)) solution.position with
        | some e => e
        | none => -1)
    | (_, some _) => (Multilateration.sentinelSolution, -1)
  else (Multilateration.sentinelSolution, -1)

/-- One iteration of the per-target localization loop of `Step`: write
the target's outcome pair into the two result maps. -/
noncomputable def localizeTarget (dimension : ℕ) (sensors : List Sensor)
    (acc : (String → Option Multilateration.Solution) × (String → Option ℝ))
    (tar : Target) :
    (String → Option Multilateration.Solution) × (String → Option ℝ) :=
  (mapSet acc.1 tar.id (targetOutcome dimension sensors tar).1,
    mapSet acc.2 tar.id (targetOutcome dimension sensors tar).2)

/-- Phase 1 of `Simulation.Step`: advance time and `Update` every
object. `draws id i` is the `i`-th `rand.Float64()` output consumed by
object `id` during this tick. -/
noncomputable def Simulation.stepUpdate (s : Simulation) (deltaTime : ℝ)
    (draws : String → ℕ → ℝ) : Simulation :=
  { s with
    simulationTime := s.simulationTime + deltaTime
    objects := s.objects.map fun o =>
      o.Update deltaTime s.bounds (draws o.GetID) }

/-- `Simulation.Step`: advance time, update every object, then run the
measurement and multilateration phase for every target against the
post-update positions. -/
noncomputable def Simulation.Step (s : Simulation) (deltaTime : ℝ)
    (draws : String → ℕ → ℝ) : Simulation :=
  let s1 := s.stepUpdate deltaTime draws
  let result := s1.targets.foldl
    (localizeTarget s.dimension s1.sensors) (s.lastEstimates, s.lastErrors)
  { s1 with lastEstimates := result.1, lastErrors := result.2 }

end Simulation

namespace SliceModel

/-- A store of `float64` backing arrays.  A Go slice value is a handle
(the data pointer of the slice header) into this store; copying a
struct that contains a slice copies the handle, not the array. -/
structure Store where
  cells : List (List ℝ)

/-- Allocation (`make([]float64, n)`, and the fresh array `Clone`
copies into): appends a new backing array and returns its handle. -/
def alloc (st : Store) (contents : List ℝ) : Store × ℕ :=
  ({ cells := st.cells ++ [contents] }, st.cells.length)

/-- Dereference a slice handle. -/
def readVec (st : Store) (a : ℕ) : List ℝ :=
  st.cells.getD a []

/-- `v[i] = x` through a slice handle: mutates the backing array in
place, visible through every alias of the same array. -/
def writeElem (st : Store) (a i : ℕ) (x : ℝ) : Store :=
  { cells := st.cells.set a ((st.cells.getD a []).set i x) }

/-- `Target.GetPosition` / `Sensor.GetPosition` under the slice model:
`position.Clone()` allocates a fresh backing array with the same
contents and returns its handle. -/
def GetPosition (st : Store) (posAddr : ℕ) : Store × ℕ :=
  alloc st (readVec st posAddr)

/-- A stored `multilateration.Solution` under the slice model: the
`Position` field is a slice handle (`none` = `nil`). -/
structure SolutionRef where
  position : Option ℕ
  residualError : ℝ

/-- The estimate table of the engine under the slice model. -/
structure EngineRef where
  store : Store
  lastEstimates : String → Option SolutionRef

/-- `Simulation.GetLastEstimate` under the slice model:
`sol, ok := s.lastEstimates[targetID]; return sol, ok` copies the
`Solution` struct by value — the copied `Position` slice header still
points at the stored backing array (the Go code performs no `Clone`
here). -/
def GetLastEstimate (s : EngineRef) (targetID : String) :
    Option SolutionRef :=
  s.lastEstimates targetID

/-- The position vector of a target's last estimate as a caller
observes it through `GetLastEstimate`: the returned handle dereferenced
in the engine's store. -/
def observedEstimatePosition (s : EngineRef) (targetID : String) :
    Option (List ℝ) :=
  (GetLastEstimate s targetID).bind fun sol =>
    sol.position.map (readVec s.store)

/-- A concrete engine whose target "t" has a stored estimate `[1, 2]`
held in the backing array at handle 0. -/
def engineBefore : EngineRef :=
  { store := { cells := [[1, 2]] }
    lastEstimates := fun id => if id = "t" then some ⟨some 0, 0⟩ else none }

end SliceModel

/-- The registration invariant of the estimate tables: every id
registered as a target reads back the sentinel pair
(`Solution{Position: nil, ResidualError: -1}`, error `-1`) with
found = true, and every other id reads back found = false.  This is
the state of the tables before any `Step` has run. -/
def Simulation.Simulation.sentinelTables (s : Simulation.Simulation) : Prop :=
  ∀ id : String,
    (id ∈ s.targets.map Simulation.Target.id →
      s.GetLastEstimate id = some Multilateration.sentinelSolution ∧
      s.GetLastLocalizationError id = some (-1)) ∧
    (id ∉ s.targets.map Simulation.Target.id →
      s.GetLastEstimate id = none ∧ s.GetLastLocalizationError id = none)

/-- Concrete 1-dimensional target used as a witness input: position 9,
velocity 2. -/
def witnessTarget : Simulation.Target := ⟨"t", [9], [2]⟩

/-- Concrete bounds `[0, 10]` used as a witness input. -/
def witnessBounds : List ℝ := [0, 10]

/-- Neutral random draws: `rand.Float64() = 1/2` makes the velocity
perturbation `(1/2*2 - 1) * 5 * dt = 0`. -/
noncomputable def witnessDraws : ℕ → ℝ := fun _ => 1 / 2

/-- Concrete 1-dimensional engine used as a witness input: bounds
`[0, 10]`, one registered target "t" at position 5, no sensors, fresh
tables. -/
def witnessSim : Simulation.Simulation :=
  ⟨1, [0, 10], [Simulation.SimulationObject.target ⟨"t", [5], [0]⟩], 0, 1,
    fun _ => none, fun _ => none⟩

/-- Neutral per-object random draws for a witness `Step`. -/
noncomputable def witnessStepDraws : String → ℕ → ℝ := fun _ _ => 1 / 2

/-- The success condition claimed by the spec for engine construction
(stated from the spec's words, for comparison with `NewSimulation` as
translated from the source): dimension at least 1, exactly `2*D`
bounds, and per-axis `min ≤ max`. -/
def specNewSimulationOk (dimension : ℤ) (bounds : List ℝ) : Prop :=
  1 ≤ dimension ∧ (bounds.length : ℤ) = 2 * dimension ∧
    ∀ i : ℕ, i < dimension.toNat →
      bounds.getD (2 * i) 0 ≤ bounds.getD (2 * i + 1) 0

/-- The candidate `(Aᵀ A)⁻¹ Aᵀ b` computed by the solver satisfies the
normal equation `Aᵀ A x = Aᵀ b` whenever `Aᵀ A` is nonsingular. -/
theorem Multilateration.normalEquation {m n : ℕ} (A : Matrix (Fin m) (Fin n) ℝ)
    (b : Fin m → ℝ) (h : (Aᵀ * A).det ≠ 0) :
    (Aᵀ * A) *ᵥ ((Aᵀ * A)⁻¹ *ᵥ (Aᵀ *ᵥ b)) = Aᵀ *ᵥ b := by
  rw [Matrix.mulVec_mulVec, Matrix.mul_nonsing_inv _ (isUnit_iff_ne_zero.mpr h),
    Matrix.one_mulVec]

/-- Any solution of the normal equation minimizes the sum of squared
residuals `‖A x - b‖₂²` over all candidate vectors. -/
theorem Multilateration.leastSquares_minimizes {m n : ℕ}
    (A : Matrix (Fin m) (Fin n) ℝ)
    (b : Fin m → ℝ) (xhat : Fin n → ℝ)
    (hnormal : (Aᵀ * A) *ᵥ xhat = Aᵀ *ᵥ b) (y : Fin n → ℝ) :
    ∑ i, (A *ᵥ xhat - b) i ^ 2 ≤ ∑ i, (A *ᵥ y - b) i ^ 2 := by
  set r : Fin m → ℝ := A *ᵥ xhat - b with hr
  set u : Fin m → ℝ := A *ᵥ (y - xhat) with hu
  have hAtr : Aᵀ *ᵥ r = 0 := by
    rw [hr, Matrix.mulVec_sub, Matrix.mulVec_mulVec, hnormal, sub_self]
  have hcross : u ⬝ᵥ r = 0 := by
    rw [Matrix.dotProduct_comm, hu, Matrix.dotProduct_mulVec,
      ← Matrix.mulVec_transpose, hAtr, Matrix.zero_dotProduct]
  have hdecomp : A *ᵥ y - b = u + r := by
    rw [hu, hr, Matrix.mulVec_sub, sub_add_sub_cancel]
  rw [hdecomp]
  have hexpand : ∀ i, (u + r) i ^ 2 = u i ^ 2 + 2 * (u i * r i) + r i ^ 2 := by
    intro i
    simp only [Pi.add_apply]
    ring
  calc ∑ i, r i ^ 2 ≤ ∑ i, u i ^ 2 + (2 * (u ⬝ᵥ r) + ∑ i, r i ^ 2) := by
        rw [hcross]
        have : (0 : ℝ) ≤ ∑ i, u i ^ 2 :=
          Finset.sum_nonneg fun i _ => sq_nonneg (u i)
        linarith
    _ = ∑ i, (u + r) i ^ 2 := by
        rw [Finset.sum_congr rfl fun i _ => hexpand i]
        rw [Finset.sum_add_distrib, Finset.sum_add_distrib, add_assoc,
          Matrix.dotProduct, Finset.mul_sum]

/-- C6: with fewer than `dimension + 1` measurements, `SolveLeastSquares`
fails with the `InsufficientMeasurements` error and returns the empty
solution, whose position is `nil` (no estimated position). -/
theorem C6_solver_insufficient_measurements
    (measurements : List Multilateration.Measurement) (dimension : ℕ)
    (h : measurements.length < dimension + 1) :
    Multilateration.SolveLeastSquares measurements dimension =
      (Multilateration.emptySolution,
        some Multilateration.SolverError.insufficientMeasurements) ∧
    (Multilateration.SolveLeastSquares measurements dimension).1.position =
      none := by
  rw [Multilateration.SolveLeastSquares, if_pos h]
  exact ⟨rfl, rfl⟩

/-- Witness for C6: one measurement in dimension 1 is rejected. -/
theorem C6_solver_insufficient_measurements_witness :
    ([Multilateration.Measurement.mk [0] 1].length < 1 + 1) ∧
    (Multilateration.SolveLeastSquares [Multilateration.Measurement.mk [0] 1]
        1 =
      (Multilateration.emptySolution,
        some Multilateration.SolverError.insufficientMeasurements) ∧
    (Multilateration.SolveLeastSquares [Multilateration.Measurement.mk [0] 1]
        1).1.position = none) :=
  ⟨by decide,
    C6_solver_insufficient_measurements [Multilateration.Measurement.mk [0] 1]
      1 (by decide)⟩

/-- `getD` at an in-range index is the indexed element. -/
theorem getD_eq_getElem {α : Type} (l : List α) (i : ℕ) (h : i < l.length)
    (d : α) : l.getD i d = l[i] := by
  rw [List.getD_eq_getElem?_getD, List.getElem?_eq_getElem h]
  rfl

/-- The reference measurement taken by the solver is the last element of
a nonempty measurement list. -/
theorem refMeasurement_eq_getLast?
    (measurements : List Multilateration.Measurement)
    (h : measurements ≠ []) :
    measurements.getLast? = some (Multilateration.refMeasurement measurements) := by
  rw [List.getLast?_eq_getLast measurements h]
  congr 1
  rw [List.getLast_eq_getElem, Multilateration.refMeasurement]
  have hl : 0 < measurements.length := List.length_pos.mpr h
  rw [getD_eq_getElem _ _ (by omega)]

/-- The clamp `if d < 0 { d = 0 }` is the identity on the non-negative
distances the data model allows. -/
theorem clampDist_of_nonneg {d : ℝ} (h : 0 ≤ d) :
    Multilateration.clampDist d = d := by
  rw [Multilateration.clampDist, if_neg (not_lt.mpr h)]

/-- The reference measurement belongs to any nonempty measurement
list. -/
theorem refMeasurement_mem (measurements : List Multilateration.Measurement)
    (hne : measurements ≠ []) :
    Multilateration.refMeasurement measurements ∈ measurements := by
  rw [Multilateration.refMeasurement,
    getD_eq_getElem _ _ (by have := List.length_pos.mpr hne; omega)]
  exact List.getElem_mem _

/-- When every sensor position has the common dimension, the
`Subtract`-based consistency check of the solver passes. -/
theorem dimsConsistent_of_uniform
    (measurements : List Multilateration.Measurement) (dimension : ℕ)
    (hne : measurements ≠ [])
    (hdim : ∀ mi ∈ measurements, mi.sensorPosition.length = dimension) :
    Multilateration.dimsConsistent measurements = true := by
  rw [Multilateration.dimsConsistent, List.all_eq_true]
  intro mi hmi
  simp [hdim mi hmi, hdim _ (refMeasurement_mem measurements hne)]

/-- C1: for `m ≥ D+1` measurements (over consistent sensor positions of
dimension `D`, with non-negative distances as the data model requires,
and with the assembled system of full rank so that the QR solve
succeeds), `SolveLeastSquares` uses the last measurement of the input
sequence as the reference, builds row `i` of `A` as
`2·(refPos − sensorPos_i)` and entry `i` of `b` as
`dist_i² − refDist² − ‖sensorPos_i‖² + ‖refPos‖²`, returns a position
that minimizes `‖A·x − b‖₂`, and reports
`residualError = ‖b − A·x̂‖₂ / sqrt(m−1)`. -/
theorem C1_solveLeastSquares_correct
    (measurements : List Multilateration.Measurement) (dimension : ℕ)
    (hm : dimension + 1 ≤ measurements.length)
    (hdim : ∀ mi ∈ measurements, mi.sensorPosition.length = dimension)
    (hdist : ∀ mi ∈ measurements, 0 ≤ mi.distance)
    (hrank : ((Multilateration.matrixA measurements dimension)ᵀ *
        Multilateration.matrixA measurements dimension).det ≠ 0) :
    ∃ refM xhat,
      measurements.getLast? = some refM ∧
      (∀ (i : Fin (measurements.length - 1)) (j : Fin dimension),
        Multilateration.matrixA measurements dimension i j =
          2 * (refM.sensorPosition.getD j 0 -
            (measurements.getD i default).sensorPosition.getD j 0)) ∧
      (∀ i : Fin (measurements.length - 1),
        Multilateration.vectorB measurements i =
          (measurements.getD i default).distance ^ 2 - refM.distance ^ 2 -
            Common.NormSq (measurements.getD i default).sensorPosition +
            Common.NormSq refM.sensorPosition) ∧
      (∀ y : Fin dimension → ℝ,
        ∑ i, (Multilateration.matrixA measurements dimension *ᵥ xhat -
            Multilateration.vectorB measurements) i ^ 2 ≤
          ∑ i, (Multilateration.matrixA measurements dimension *ᵥ y -
            Multilateration.vectorB measurements) i ^ 2) ∧
      Multilateration.SolveLeastSquares measurements dimension =
        ({ position := some (List.ofFn fun j => xhat j),
           residualError :=
             Real.sqrt (∑ i,
               ((Multilateration.vectorB measurements -
                 Multilateration.matrixA measurements dimension *ᵥ xhat) i) ^ 2) /
             Real.sqrt ((measurements.length - 1 : ℕ) : ℝ) }, none) := by
  have hne : measurements ≠ [] := by
    intro hc
    rw [hc] at hm
    simp at hm
  set A := Multilateration.matrixA measurements dimension with hA
  set b := Multilateration.vectorB measurements with hb
  refine ⟨Multilateration.refMeasurement measurements,
    (Aᵀ * A)⁻¹ *ᵥ (Aᵀ *ᵥ b), refMeasurement_eq_getLast? measurements hne,
    fun i j => rfl, ?_, ?_, ?_⟩
  · intro i
    have hilt : (i : ℕ) < measurements.length := lt_of_lt_of_le i.2 (by omega)
    have hmem : measurements.getD (i : ℕ) default ∈ measurements := by
      rw [getD_eq_getElem _ _ hilt]
      exact List.getElem_mem hilt
    rw [hb, Multilateration.vectorB]
    rw [clampDist_of_nonneg (hdist _ hmem),
      clampDist_of_nonneg (hdist _ (refMeasurement_mem measurements hne))]
    ring
  · exact fun y =>
      Multilateration.leastSquares_minimizes A b _
        (Multilateration.normalEquation A b hrank) y
  · rw [Multilateration.SolveLeastSquares]
    rw [if_neg (not_lt.mpr hm)]
    rw [if_neg
      (by simp [dimsConsistent_of_uniform measurements dimension hne hdim])]
    rw [if_neg hrank]
    rfl

/-- Witness for C1: dimension 1, sensors at positions 0 and 3 (the
latter the reference), exact distances from the true position 1. -/
theorem C1_solveLeastSquares_correct_witness :
    (1 + 1 ≤ ([⟨[0], 1⟩, ⟨[3], 2⟩] :
        List Multilateration.Measurement).length) ∧
    (∀ mi ∈ ([⟨[0], 1⟩, ⟨[3], 2⟩] : List Multilateration.Measurement),
      mi.sensorPosition.length = 1) ∧
    (∀ mi ∈ ([⟨[0], 1⟩, ⟨[3], 2⟩] : List Multilateration.Measurement),
      0 ≤ mi.distance) ∧
    ((Multilateration.matrixA [⟨[0], 1⟩, ⟨[3], 2⟩] 1)ᵀ *
        Multilateration.matrixA [⟨[0], 1⟩, ⟨[3], 2⟩] 1).det ≠ 0 ∧
    (∃ refM xhat,
      ([⟨[0], 1⟩, ⟨[3], 2⟩] :
          List Multilateration.Measurement).getLast? = some refM ∧
      (∀ (i : Fin (([⟨[0], 1⟩, ⟨[3], 2⟩] :
            List Multilateration.Measurement).length - 1)) (j : Fin 1),
        Multilateration.matrixA [⟨[0], 1⟩, ⟨[3], 2⟩] 1 i j =
          2 * (refM.sensorPosition.getD j 0 -
            (([⟨[0], 1⟩, ⟨[3], 2⟩] :
              List Multilateration.Measurement).getD i
                default).sensorPosition.getD j 0)) ∧
      (∀ i : Fin (([⟨[0], 1⟩, ⟨[3], 2⟩] :
          List Multilateration.Measurement).length - 1),
        Multilateration.vectorB [⟨[0], 1⟩, ⟨[3], 2⟩] i =
          (([⟨[0], 1⟩, ⟨[3], 2⟩] :
            List Multilateration.Measurement).getD i default).distance ^ 2 -
            refM.distance ^ 2 -
            Common.NormSq (([⟨[0], 1⟩, ⟨[3], 2⟩] :
              List Multilateration.Measurement).getD i
                default).sensorPosition +
            Common.NormSq refM.sensorPosition) ∧
      (∀ y : Fin 1 → ℝ,
        ∑ i, (Multilateration.matrixA [⟨[0], 1⟩, ⟨[3], 2⟩] 1 *ᵥ xhat -
            Multilateration.vectorB [⟨[0], 1⟩, ⟨[3], 2⟩]) i ^ 2 ≤
          ∑ i, (Multilateration.matrixA [⟨[0], 1⟩, ⟨[3], 2⟩] 1 *ᵥ y -
            Multilateration.vectorB [⟨[0], 1⟩, ⟨[3], 2⟩]) i ^ 2) ∧
      Multilateration.SolveLeastSquares [⟨[0], 1⟩, ⟨[3], 2⟩] 1 =
        ({ position := some (List.ofFn fun j => xhat j),
           residualError :=
             Real.sqrt (∑ i,
               ((Multilateration.vectorB [⟨[0], 1⟩, ⟨[3], 2⟩] -
                 Multilateration.matrixA [⟨[0], 1⟩, ⟨[3], 2⟩] 1 *ᵥ xhat) i) ^ 2) /
             Real.sqrt ((([⟨[0], 1⟩, ⟨[3], 2⟩] :
               List Multilateration.Measurement).length - 1 : ℕ) : ℝ) },
          none)) := by
  have h1 : (1 + 1 ≤ ([⟨[0], 1⟩, ⟨[3], 2⟩] :
      List Multilateration.Measurement).length) := by decide
  have h2 : ∀ mi ∈ ([⟨[0], 1⟩, ⟨[3], 2⟩] : List Multilateration.Measurement),
      mi.sensorPosition.length = 1 := by
    intro mi hmi
    simp only [List.mem_cons, List.not_mem_nil, or_false] at hmi
    rcases hmi with rfl | rfl <;> rfl
  have h3 : ∀ mi ∈ ([⟨[0], 1⟩, ⟨[3], 2⟩] : List Multilateration.Measurement),
      0 ≤ mi.distance := by
    intro mi hmi
    simp only [List.mem_cons, List.not_mem_nil, or_false] at hmi
    rcases hmi with rfl | rfl <;> norm_num
  have hA00 : Multilateration.matrixA [⟨[0], 1⟩, ⟨[3], 2⟩] 1 ⟨0, by decide⟩
      0 = 6 := by
    norm_num [Multilateration.matrixA, Multilateration.refMeasurement]
  have h4 : ((Multilateration.matrixA [⟨[0], 1⟩, ⟨[3], 2⟩] 1)ᵀ *
      Multilateration.matrixA [⟨[0], 1⟩, ⟨[3], 2⟩] 1).det ≠ 0 := by
    have hdet : ((Multilateration.matrixA [⟨[0], 1⟩, ⟨[3], 2⟩] 1)ᵀ *
        Multilateration.matrixA [⟨[0], 1⟩, ⟨[3], 2⟩] 1).det =
        Multilateration.matrixA [⟨[0], 1⟩, ⟨[3], 2⟩] 1 ⟨0, by decide⟩ 0 *
          Multilateration.matrixA [⟨[0], 1⟩, ⟨[3], 2⟩] 1 ⟨0, by decide⟩ 0 := by
      rw [Matrix.det_fin_one, Matrix.mul_apply]
      exact Fin.sum_univ_one fun j =>
        (Multilateration.matrixA [⟨[0], 1⟩, ⟨[3], 2⟩] 1)ᵀ 0 j *
          Multilateration.matrixA [⟨[0], 1⟩, ⟨[3], 2⟩] 1 j 0
    rw [hdet, hA00]
    norm_num
  exact ⟨h1, h2, h3, h4,
    C1_solveLeastSquares_correct [⟨[0], 1⟩, ⟨[3], 2⟩] 1 h1 h2 h3 h4⟩

/-- C2: if the assembled `(m-1) × D` matrix `A` is rank-deficient
(witnessed by a nonzero vector in its kernel, i.e. rank < D), the solve
does not return a `Solution` indistinguishable from a full-rank
success: in exact arithmetic the QR factorization's triangular factor
is singular exactly when `det (Aᵀ A) = 0`, so `SolveLeastSquares`
surfaces a `SolveFailure` error and returns the empty solution. -/
theorem C2_rank_deficient_surfaces_failure
    (measurements : List Multilateration.Measurement) (dimension : ℕ)
    (hm : dimension + 1 ≤ measurements.length)
    (hdim : ∀ mi ∈ measurements, mi.sensorPosition.length = dimension)
    (hdeficient : ∃ v : Fin dimension → ℝ, v ≠ 0 ∧
      Multilateration.matrixA measurements dimension *ᵥ v = 0) :
    Multilateration.SolveLeastSquares measurements dimension =
      (Multilateration.emptySolution,
        some Multilateration.SolverError.solveFailure) := by
  have hne : measurements ≠ [] := by
    intro hc
    rw [hc] at hm
    simp at hm
  obtain ⟨v, hv, hAv⟩ := hdeficient
  have hdet0 : ((Multilateration.matrixA measurements dimension)ᵀ *
      Multilateration.matrixA measurements dimension).det = 0 := by
    rw [← Matrix.exists_mulVec_eq_zero_iff]
    exact ⟨v, hv, by rw [← Matrix.mulVec_mulVec, hAv, Matrix.mulVec_zero]⟩
  rw [Multilateration.SolveLeastSquares]
  rw [if_neg (not_lt.mpr hm)]
  rw [if_neg
    (by simp [dimsConsistent_of_uniform measurements dimension hne hdim])]
  rw [if_pos hdet0]

/-- Witness for C2: three collinear sensors at (0,0), (1,2), (2,4) in
dimension 2 give a rank-1 system; the solver reports `SolveFailure`. -/
theorem C2_rank_deficient_surfaces_failure_witness :
    (2 + 1 ≤ ([⟨[0, 0], 1⟩, ⟨[1, 2], 1⟩, ⟨[2, 4], 1⟩] :
        List Multilateration.Measurement).length) ∧
    (∀ mi ∈ ([⟨[0, 0], 1⟩, ⟨[1, 2], 1⟩, ⟨[2, 4], 1⟩] :
        List Multilateration.Measurement), mi.sensorPosition.length = 2) ∧
    (∃ v : Fin 2 → ℝ, v ≠ 0 ∧
      Multilateration.matrixA [⟨[0, 0], 1⟩, ⟨[1, 2], 1⟩, ⟨[2, 4], 1⟩] 2 *ᵥ v =
        0) ∧
    Multilateration.SolveLeastSquares
        [⟨[0, 0], 1⟩, ⟨[1, 2], 1⟩, ⟨[2, 4], 1⟩] 2 =
      (Multilateration.emptySolution,
        some Multilateration.SolverError.solveFailure) := by
  have h1 : (2 + 1 ≤ ([⟨[0, 0], 1⟩, ⟨[1, 2], 1⟩, ⟨[2, 4], 1⟩] :
      List Multilateration.Measurement).length) := by decide
  have h2 : ∀ mi ∈ ([⟨[0, 0], 1⟩, ⟨[1, 2], 1⟩, ⟨[2, 4], 1⟩] :
      List Multilateration.Measurement), mi.sensorPosition.length = 2 := by
    intro mi hmi
    simp only [List.mem_cons, List.not_mem_nil, or_false] at hmi
    rcases hmi with rfl | rfl | rfl <;> rfl
  have h3 : ∃ v : Fin 2 → ℝ, v ≠ 0 ∧
      Multilateration.matrixA [⟨[0, 0], 1⟩, ⟨[1, 2], 1⟩, ⟨[2, 4], 1⟩] 2 *ᵥ v =
        0 := by
    refine ⟨![2, -1], ?_, ?_⟩
    · intro hc
      have : (![2, -1] : Fin 2 → ℝ) 0 = 0 := by rw [hc]; rfl
      norm_num at this
    · funext i
      rcases i with ⟨iv, hiv⟩
      have hiv2 : iv < 2 := hiv
      interval_cases iv <;>
        norm_num [Matrix.mulVec, Matrix.dotProduct, Fin.sum_univ_two,
          Multilateration.matrixA, Multilateration.refMeasurement]
  exact ⟨h1, h2, h3,
    C2_rank_deficient_surfaces_failure
      [⟨[0, 0], 1⟩, ⟨[1, 2], 1⟩, ⟨[2, 4], 1⟩] 2 h1 h2 h3⟩

/-- Counterexample for C3: `NewSimulation(1, [5, 3], ...)` violates the
claimed per-axis `min ≤ max` requirement (5 > 3), yet the constructor
succeeds; the code checks only the bounds length (and only when
`dimension > 0`) and the sign of the dimension. -/
theorem C3_counterexample :
    (Simulation.NewSimulation 1 [5, 3] 1).isSome = true ∧
    ¬ specNewSimulationOk 1 [5, 3] := by
  constructor
  · rfl
  · rintro ⟨-, -, hp⟩
    have h5 := hp 0 (by norm_num)
    norm_num [List.getD] at h5

/-- C3 amended: `NewSimulation` succeeds iff the dimension is
non-negative and either the dimension is 0 (any bounds accepted) or the
bounds have length `2*dimension`; `min ≤ max` is never checked. -/
theorem C3_amended_newSimulation_iff (dimension : ℤ) (bounds : List ℝ)
    (tickDuration : ℝ) :
    (Simulation.NewSimulation dimension bounds tickDuration).isSome = true ↔
      0 ≤ dimension ∧
        (dimension = 0 ∨ (bounds.length : ℤ) = dimension * 2) := by
  rw [Simulation.NewSimulation]
  split_ifs with h1 h2
  · simp only [Option.isSome_none, Bool.false_eq_true, false_iff]
    omega
  · simp only [Option.isSome_none, Bool.false_eq_true, false_iff]
    omega
  · simp only [Option.isSome_some, true_iff]
    omega

/-- Counterexample for C7: the noise model itself does not clamp.
`GaussianNoise(1)` at true distance 1 with the normal draw -2 returns
`1 + (-2)*1 = -1 < 0`; the clamp to non-negative lives in
`Sensor.MeasureDistance`, not in the noise functions. -/
theorem C7_counterexample : Simulation.GaussianNoise 1 (-2) 1 < 0 := by
  rw [Simulation.GaussianNoise, if_neg (by norm_num)]
  norm_num

/-- C7 amended: noise functions may return negative values, but
`Sensor.MeasureDistance` clamps the noisy distance to be non-negative,
so every measured distance it reports (for any noise model and any
draw) is ≥ 0. -/
theorem C7_amended_measured_distance_nonneg (sen : Simulation.Sensor)
    (targetPos : Common.Vec) (r : ℝ) (b : Bool)
    (h : sen.MeasureDistance targetPos = some (r, b)) : 0 ≤ r := by
  rw [Simulation.Sensor.MeasureDistance] at h
  cases hd : Common.Distance sen.position targetPos with
  | none =>
    rw [hd] at h
    exact absurd h (by simp)
  | some trueDist =>
    rw [hd] at h
    dsimp only at h
    by_cases hrange : sen.detectionRadius > 0 ∧ trueDist > sen.detectionRadius
    · rw [if_pos hrange] at h
      simp only [Option.some.injEq, Prod.mk.injEq] at h
      rw [← h.1]
    · rw [if_neg hrange] at h
      simp only [Option.some.injEq, Prod.mk.injEq] at h
      rw [← h.1]
      split_ifs with hneg
      · exact le_refl 0
      · exact not_lt.mp hneg

/-- Witness for C7 (amended): a sensor at 0 with unlimited range and no
noise measures the target at 3 with the non-negative distance √9. -/
theorem C7_amended_measured_distance_nonneg_witness :
    (Simulation.Sensor.mk "s" [0] (-1) none).MeasureDistance [3] =
      some (Real.sqrt 9, true) ∧
    (0 : ℝ) ≤ Real.sqrt 9 := by
  have h : (Simulation.Sensor.mk "s" [0] (-1) none).MeasureDistance [3] =
      some (Real.sqrt 9, true) := by
    rw [Simulation.Sensor.MeasureDistance]
    have hdist : Common.Distance [(0 : ℝ)] [3] = some (Real.sqrt 9) := by
      rw [Common.Distance, if_pos (by rfl)]
      norm_num [Common.sumSq]
    dsimp only
    rw [hdist]
    dsimp only
    rw [if_neg (by norm_num)]
    rw [if_neg (not_lt.mpr (Real.sqrt_nonneg 9))]
  exact ⟨h,
    C7_amended_measured_distance_nonneg (Simulation.Sensor.mk "s" [0] (-1) none)
      [3] (Real.sqrt 9) true h⟩

/-- C9: in `Target.Update` with bounds of length `2*dimension`, each
axis is handled independently: writing `p` for the axis's integrated
coordinate (after velocity perturbation and speed limiting), an axis
with `p` below its minimum is reflected to `min + (min - p)`, an axis
with `p` above its maximum is reflected to `max + (max - p)` (the code
computes the equal `max - (p - max)`), and in both cases that axis's
velocity component is multiplied by `-0.8`; an axis within bounds
keeps `p` and its velocity component.  The axis's interval is assumed
ordered (`min ≤ max`), as the spec's `[min,max]` notation requires. -/
theorem C9_target_update_reflection (t : Simulation.Target)
    (deltaTime : ℝ) (bounds : List ℝ) (draws : ℕ → ℝ)
    (hb : bounds.length = t.position.length * 2)
    (i : ℕ) (hi : i < t.position.length)
    (hminmax : bounds.getD (i * 2) 0 ≤ bounds.getD (i * 2 + 1) 0) :
    ((t.integratedPosition deltaTime draws).getD i 0 < bounds.getD (i * 2) 0 →
      (t.Update deltaTime bounds draws).position.getD i 0 =
        bounds.getD (i * 2) 0 +
          (bounds.getD (i * 2) 0 -
            (t.integratedPosition deltaTime draws).getD i 0) ∧
      (t.Update deltaTime bounds draws).velocity.getD i 0 =
        (t.limitedVelocity deltaTime draws).getD i 0 * (-0.8)) ∧
    (bounds.getD (i * 2 + 1) 0 <
        (t.integratedPosition deltaTime draws).getD i 0 →
      (t.Update deltaTime bounds draws).position.getD i 0 =
        bounds.getD (i * 2 + 1) 0 +
          (bounds.getD (i * 2 + 1) 0 -
            (t.integratedPosition deltaTime draws).getD i 0) ∧
      (t.Update deltaTime bounds draws).velocity.getD i 0 =
        (t.limitedVelocity deltaTime draws).getD i 0 * (-0.8)) ∧
    (bounds.getD (i * 2) 0 ≤ (t.integratedPosition deltaTime draws).getD i 0 →
      (t.integratedPosition deltaTime draws).getD i 0 ≤
        bounds.getD (i * 2 + 1) 0 →
      (t.Update deltaTime bounds draws).position.getD i 0 =
        (t.integratedPosition deltaTime draws).getD i 0 ∧
      (t.Update deltaTime bounds draws).velocity.getD i 0 =
        (t.limitedVelocity deltaTime draws).getD i 0) := by
  rw [Simulation.Target.Update, if_neg (by omega)]
  set minB := bounds.getD (i * 2) 0 with hminB
  set maxB := bounds.getD (i * 2 + 1) 0 with hmaxB
  set p := (t.integratedPosition deltaTime draws).getD i 0 with hp
  set v := (t.limitedVelocity deltaTime draws).getD i 0 with hv
  have hlenp : i < (List.ofFn fun k : Fin t.position.length =>
      let minBound := bounds.getD (k * 2) 0
      let maxBound := bounds.getD (k * 2 + 1) 0
      let pk := (t.integratedPosition deltaTime draws).getD k 0
      let vk := (t.limitedVelocity deltaTime draws).getD k 0
      if pk < minBound then (minBound + (minBound - pk), vk * (-0.8))
      else if pk > maxBound then (maxBound - (pk - maxBound), vk * (-0.8))
      else (pk, vk)).length := by
    simpa using hi
  have hgetp : ∀ g : ℝ × ℝ → ℝ,
      ((List.ofFn fun k : Fin t.position.length =>
        let minBound := bounds.getD (k * 2) 0
        let maxBound := bounds.getD (k * 2 + 1) 0
        let pk := (t.integratedPosition deltaTime draws).getD k 0
        let vk := (t.limitedVelocity deltaTime draws).getD k 0
        if pk < minBound then (minBound + (minBound - pk), vk * (-0.8))
        else if pk > maxBound then (maxBound - (pk - maxBound), vk * (-0.8))
        else (pk, vk)).map g).getD i 0 =
      g (if p < minB then (minB + (minB - p), v * (-0.8))
        else if p > maxB then (maxB - (p - maxB), v * (-0.8))
        else (p, v)) := by
    intro g
    rw [getD_eq_getElem _ _ (by simpa using hi)]
    rw [List.getElem_map, List.getElem_ofFn]
  refine ⟨?_, ?_, ?_⟩
  · intro hlow
    constructor
    · rw [hgetp Prod.fst, if_pos hlow]
    · rw [hgetp Prod.snd, if_pos hlow]
  · intro hhigh
    have hnlow : ¬ p < minB := by
      rw [not_lt]
      calc minB ≤ maxB := hminmax
        _ ≤ p := le_of_lt hhigh
    constructor
    · rw [hgetp Prod.fst, if_neg hnlow, if_pos hhigh]
      ring
    · rw [hgetp Prod.snd, if_neg hnlow, if_pos hhigh]
  · intro hge hle
    constructor
    · rw [hgetp Prod.fst, if_neg (not_lt.mpr hge), if_neg (not_lt.mpr hle)]
    · rw [hgetp Prod.snd, if_neg (not_lt.mpr hge), if_neg (not_lt.mpr hle)]


/-- Witness for C9: a 1-dimensional target at 9 with velocity 2 and
neutral draws in bounds [0, 10]; its integrated position 11 exceeds the
maximum 10, so the reflection branch of the conclusion applies. -/
theorem C9_target_update_reflection_witness :
    (witnessBounds.length = witnessTarget.position.length * 2) ∧
    (0 < witnessTarget.position.length) ∧
    (witnessBounds.getD (0 * 2) 0 ≤ witnessBounds.getD (0 * 2 + 1) 0) ∧
    (((witnessTarget.integratedPosition 1 witnessDraws).getD 0 0 <
        witnessBounds.getD (0 * 2) 0 →
      (witnessTarget.Update 1 witnessBounds witnessDraws).position.getD 0 0 =
        witnessBounds.getD (0 * 2) 0 +
          (witnessBounds.getD (0 * 2) 0 -
            (witnessTarget.integratedPosition 1 witnessDraws).getD 0 0) ∧
      (witnessTarget.Update 1 witnessBounds witnessDraws).velocity.getD 0 0 =
        (witnessTarget.limitedVelocity 1 witnessDraws).getD 0 0 * (-0.8)) ∧
    (witnessBounds.getD (0 * 2 + 1) 0 <
        (witnessTarget.integratedPosition 1 witnessDraws).getD 0 0 →
      (witnessTarget.Update 1 witnessBounds witnessDraws).position.getD 0 0 =
        witnessBounds.getD (0 * 2 + 1) 0 +
          (witnessBounds.getD (0 * 2 + 1) 0 -
            (witnessTarget.integratedPosition 1 witnessDraws).getD 0 0) ∧
      (witnessTarget.Update 1 witnessBounds witnessDraws).velocity.getD 0 0 =
        (witnessTarget.limitedVelocity 1 witnessDraws).getD 0 0 * (-0.8)) ∧
    (witnessBounds.getD (0 * 2) 0 ≤
        (witnessTarget.integratedPosition 1 witnessDraws).getD 0 0 →
      (witnessTarget.integratedPosition 1 witnessDraws).getD 0 0 ≤
        witnessBounds.getD (0 * 2 + 1) 0 →
      (witnessTarget.Update 1 witnessBounds witnessDraws).position.getD 0 0 =
        (witnessTarget.integratedPosition 1 witnessDraws).getD 0 0 ∧
      (witnessTarget.Update 1 witnessBounds witnessDraws).velocity.getD 0 0 =
        (witnessTarget.limitedVelocity 1 witnessDraws).getD 0 0)) := by
  refine ⟨rfl, by norm_num [witnessTarget], ?_, ?_⟩
  · norm_num [witnessBounds, List.getD]
  · exact C9_target_update_reflection witnessTarget 1 witnessBounds
      witnessDraws rfl 0 (by norm_num [witnessTarget])
      (by norm_num [witnessBounds, List.getD])

/-- Writing through one slice handle does not change the array behind a
different handle. -/
theorem SliceModel.readVec_writeElem_ne (st : SliceModel.Store)
    (a b i : ℕ) (x : ℝ) (hne : a ≠ b) (hb : b < st.cells.length) :
    SliceModel.readVec (SliceModel.writeElem st a i x) b =
      SliceModel.readVec st b := by
  rw [SliceModel.writeElem, SliceModel.readVec, SliceModel.readVec]
  rw [getD_eq_getElem _ _ (by simpa using hb)]
  rw [getD_eq_getElem _ _ hb]
  exact List.getElem_set_ne hne _

/-- Writing element `j` through a slice handle updates exactly that
element of the array behind the handle. -/
theorem SliceModel.readVec_writeElem_self (st : SliceModel.Store)
    (a j : ℕ) (y : ℝ) :
    SliceModel.readVec (SliceModel.writeElem st a j y) a =
      (SliceModel.readVec st a).set j y := by
  rw [SliceModel.writeElem, SliceModel.readVec, SliceModel.readVec]
  by_cases h : a < st.cells.length
  · rw [getD_eq_getElem _ _ (by simpa using h)]
    rw [List.getElem_set_self (by simpa using h)]
  · rw [List.getD_eq_default _ _ (by simpa using not_lt.mp h)]
    rw [List.getD_eq_default _ _ (not_lt.mp h)]
    rw [List.set_nil]

/-- Allocation leaves existing arrays unchanged. -/
theorem SliceModel.readVec_alloc_old (st : SliceModel.Store)
    (c : List ℝ) (b : ℕ) (hb : b < st.cells.length) :
    SliceModel.readVec (SliceModel.alloc st c).1 b =
      SliceModel.readVec st b := by
  rw [SliceModel.alloc, SliceModel.readVec, SliceModel.readVec]
  rw [getD_eq_getElem _ _ (by simp; omega)]
  rw [getD_eq_getElem _ _ hb]
  exact List.getElem_append_left hb

/-- Counterexample for C8: `GetLastEstimate` does not return an
independent copy.  Under the slice model of Go slice headers, the
`Solution` struct returned by `GetLastEstimate` carries the same
backing-array handle (0) as the stored estimate; writing 99 through
that returned handle changes what a subsequent `GetLastEstimate`
observes from `[1, 2]` to `[99, 2]`. -/
theorem C8_counterexample :
    SliceModel.GetLastEstimate SliceModel.engineBefore "t" =
      some ⟨some 0, 0⟩ ∧
    SliceModel.observedEstimatePosition SliceModel.engineBefore "t" =
      some [1, 2] ∧
    SliceModel.observedEstimatePosition
      { SliceModel.engineBefore with
        store := SliceModel.writeElem SliceModel.engineBefore.store 0 0 99 }
      "t" = some [99, 2] ∧
    ([(99 : ℝ), 2]) ≠ [1, 2] := by
  refine ⟨rfl, rfl, ?_, ?_⟩
  · simp [SliceModel.observedEstimatePosition, SliceModel.GetLastEstimate,
      SliceModel.engineBefore, SliceModel.writeElem, SliceModel.readVec]
  · intro h
    rw [List.cons.injEq] at h
    have h99 : (99 : ℝ) = 1 := h.1
    norm_num at h99

/-- C8 amended: accessors that `Clone` (`Target.GetPosition`,
`Sensor.GetPosition`) return independent copies — writing through the
handle `GetPosition` returns leaves the object's own backing array
unchanged — but the `Solution` returned by `GetLastEstimate` shares its
`Position` backing array with the stored estimate, so a caller's write
through it is visible to the next `GetLastEstimate`. -/
theorem C8_amended_accessor_copy_semantics
    (st : SliceModel.Store) (posAddr : ℕ) (hpos : posAddr < st.cells.length)
    (i : ℕ) (x : ℝ)
    (s : SliceModel.EngineRef) (targetID : String) (a j : ℕ) (y : ℝ)
    (ha : ((SliceModel.GetLastEstimate s targetID).bind fun sol =>
      sol.position) = some a) :
    SliceModel.readVec
        (SliceModel.writeElem (SliceModel.GetPosition st posAddr).1
          (SliceModel.GetPosition st posAddr).2 i x) posAddr =
      SliceModel.readVec st posAddr ∧
    SliceModel.observedEstimatePosition
        { s with store := SliceModel.writeElem s.store a j y } targetID =
      some ((SliceModel.readVec s.store a).set j y) := by
  constructor
  · rw [show (SliceModel.GetPosition st posAddr).2 = st.cells.length from rfl]
    rw [show (SliceModel.GetPosition st posAddr).1 =
      (SliceModel.alloc st (SliceModel.readVec st posAddr)).1 from rfl]
    rw [SliceModel.readVec_writeElem_ne _ _ _ _ _ (by omega)
      (by simp [SliceModel.alloc]; omega)]
    exact SliceModel.readVec_alloc_old st _ posAddr hpos
  · rw [SliceModel.observedEstimatePosition]
    cases hsol : s.lastEstimates targetID with
    | none =>
      rw [SliceModel.GetLastEstimate] at ha
      rw [hsol] at ha
      exact absurd ha (by simp)
    | some sol =>
      rw [SliceModel.GetLastEstimate] at ha ⊢
      rw [hsol] at ha
      have hap : sol.position = some a := by simpa using ha
      show (s.lastEstimates targetID).bind _ = _
      rw [hsol]
      simp only [Option.some_bind, hap, Option.map_some']
      rw [SliceModel.readVec_writeElem_self]

/-- Witness for C8 (amended): a store with one array `[1, 2]`; cloning
via `GetPosition` protects it from the caller's write, while the handle
returned by `GetLastEstimate` exposes the stored estimate to the
caller's write. -/
theorem C8_amended_accessor_copy_semantics_witness :
    (0 < (SliceModel.Store.mk [[1, 2]]).cells.length) ∧
    (((SliceModel.GetLastEstimate SliceModel.engineBefore "t").bind
      fun sol => sol.position) = some 0) ∧
    (SliceModel.readVec
        (SliceModel.writeElem
          (SliceModel.GetPosition (SliceModel.Store.mk [[1, 2]]) 0).1
          (SliceModel.GetPosition (SliceModel.Store.mk [[1, 2]]) 0).2 0 99) 0 =
      SliceModel.readVec (SliceModel.Store.mk [[1, 2]]) 0 ∧
    SliceModel.observedEstimatePosition
        { SliceModel.engineBefore with
          store := SliceModel.writeElem SliceModel.engineBefore.store 0 0 99 }
        "t" =
      some ((SliceModel.readVec SliceModel.engineBefore.store 0).set 0 99)) := by
  refine ⟨by decide, rfl, ?_⟩
  exact C8_amended_accessor_copy_semantics (SliceModel.Store.mk [[1, 2]]) 0
    (by decide) 0 99 SliceModel.engineBefore "t" 0 0 99 rfl

/-- `AddObject` preserves the sentinel-table invariant: a rejected add
leaves the engine unchanged; adding a sensor touches neither the
`targets` view nor the tables; adding a target registers its id and
initializes both tables to the sentinel pair for it. -/
theorem Simulation.addObject_sentinelTables (s : Simulation.Simulation)
    (hs : s.sentinelTables) (obj : Simulation.SimulationObject) :
    ((s.AddObject obj).getD s).sentinelTables := by
  rw [Simulation.Simulation.AddObject.eq_def]
  split_ifs with h1 h2
  · exact hs
  · exact hs
  · cases obj with
    | sensor sen =>
      simp only [Option.getD_some]
      intro id
      have htargets :
          ({ s with objects := s.objects ++
              [Simulation.SimulationObject.sensor sen] } :
            Simulation.Simulation).targets = s.targets := by
        rw [Simulation.Simulation.targets, Simulation.Simulation.targets,
          List.filterMap_append]
        simp [Simulation.SimulationObject.asTarget]
      rw [htargets]
      exact hs id
    | target tar =>
      simp only [Option.getD_some]
      intro id
      have htargets :
          ({ s with
              objects := s.objects ++ [Simulation.SimulationObject.target tar]
              lastEstimates := Simulation.mapSet s.lastEstimates tar.id
                Multilateration.sentinelSolution
              lastErrors := Simulation.mapSet s.lastErrors tar.id (-1) } :
            Simulation.Simulation).targets = s.targets ++ [tar] := by
        rw [Simulation.Simulation.targets, Simulation.Simulation.targets,
          List.filterMap_append]
        simp [Simulation.SimulationObject.asTarget]
      constructor
      · intro hmem
        by_cases hid : id = tar.id
        · constructor
          · show Simulation.mapSet s.lastEstimates tar.id
              Multilateration.sentinelSolution id = _
            rw [Simulation.mapSet, if_pos hid]
          · show Simulation.mapSet s.lastErrors tar.id (-1) id = _
            rw [Simulation.mapSet, if_pos hid]
        · rw [htargets] at hmem
          simp only [List.map_append, List.mem_append, List.map_cons,
            List.map_nil, List.mem_singleton] at hmem
          have hmem2 : id ∈ s.targets.map Simulation.Target.id := by
            rcases hmem with h | h
            · exact h
            · exact absurd h hid
          have := (hs id).1 hmem2
          constructor
          · show Simulation.mapSet s.lastEstimates tar.id
              Multilateration.sentinelSolution id = _
            rw [Simulation.mapSet, if_neg hid]
            exact this.1
          · show Simulation.mapSet s.lastErrors tar.id (-1) id = _
            rw [Simulation.mapSet, if_neg hid]
            exact this.2
      · intro hmem
        rw [htargets] at hmem
        simp only [List.map_append, List.mem_append, List.map_cons,
          List.map_nil, List.mem_singleton, not_or] at hmem
        have := (hs id).2 hmem.1
        constructor
        · show Simulation.mapSet s.lastEstimates tar.id
            Multilateration.sentinelSolution id = _
          rw [Simulation.mapSet, if_neg hmem.2]
          exact this.1
        · show Simulation.mapSet s.lastErrors tar.id (-1) id = _
          rw [Simulation.mapSet, if_neg hmem.2]
          exact this.2

/-- C10: starting from a freshly constructed engine and any sequence of
`AddObject` calls (with no `Step`), every id registered as a target
reads back `found = true` with the sentinel estimate
`Solution{position: none, residualError: -1}` and the sentinel error
`-1` from `GetLastEstimate` / `GetLastLocalizationError` — `AddObject`
initializes both immediately — while an id never registered as a
target reads back `found = false` from both. -/
theorem C10_addObject_initializes_sentinel (dimension : ℤ)
    (bounds : List ℝ) (tickDuration : ℝ) (s0 : Simulation.Simulation)
    (h0 : Simulation.NewSimulation dimension bounds tickDuration = some s0)
    (objs : List Simulation.SimulationObject) :
    (s0.addAll objs).sentinelTables := by
  have hbase : s0.sentinelTables := by
    rw [Simulation.NewSimulation] at h0
    split_ifs at h0
    have hs0 := (Option.some.injEq _ _).mp h0
    intro id
    rw [← hs0]
    constructor
    · intro hmem
      simp [Simulation.Simulation.targets] at hmem
    · intro hmem
      exact ⟨rfl, rfl⟩
  rw [Simulation.Simulation.addAll]
  clear h0
  induction objs generalizing s0 with
  | nil => exact hbase
  | cons obj rest ih =>
    rw [List.foldl_cons]
    exact ih _ (Simulation.addObject_sentinelTables s0 hbase obj)

/-- Witness for C10: a fresh 1-dimensional engine with one registered
target "t" satisfies the sentinel-table property before any `Step`. -/
theorem C10_addObject_initializes_sentinel_witness :
    (Simulation.NewSimulation 1 [0, 1] 1 =
      some ⟨1, [0, 1], [], 0, 1, fun _ => none, fun _ => none⟩) ∧
    ((Simulation.Simulation.mk 1 [0, 1] [] 0 1 (fun _ => none)
        (fun _ => none)).addAll
      [Simulation.SimulationObject.target ⟨"t", [0], [0]⟩]).sentinelTables :=
  ⟨rfl,
    C10_addObject_initializes_sentinel 1 [0, 1] 1
      (Simulation.Simulation.mk 1 [0, 1] [] 0 1 (fun _ => none)
        (fun _ => none))
      rfl [Simulation.SimulationObject.target ⟨"t", [0], [0]⟩]⟩

/-- `Target.Update` never changes the target's id. -/
theorem Simulation.Target.Update_id (t : Simulation.Target)
    (deltaTime : ℝ) (bounds : List ℝ) (draws : ℕ → ℝ) :
    (t.Update deltaTime bounds draws).id = t.id := by
  rw [Simulation.Target.Update]
  split_ifs <;> rfl

/-- `Target.Update` preserves the length of the position vector. -/
theorem Simulation.Target.Update_position_length (t : Simulation.Target)
    (deltaTime : ℝ) (bounds : List ℝ) (draws : ℕ → ℝ) :
    (t.Update deltaTime bounds draws).position.length = t.position.length := by
  rw [Simulation.Target.Update]
  split_ifs
  · rfl
  · simp

/-- Phase 1 of `Step` leaves the `sensors` view unchanged (sensor
`Update` is a no-op). -/
theorem Simulation.stepUpdate_sensors (s : Simulation.Simulation)
    (deltaTime : ℝ) (draws : String → ℕ → ℝ) :
    (s.stepUpdate deltaTime draws).sensors = s.sensors := by
  show (s.objects.map _).filterMap _ = s.objects.filterMap _
  rw [List.filterMap_map]
  congr 1
  funext o
  cases o with
  | sensor sen => rfl
  | target tar => rfl

/-- Phase 1 of `Step` updates every target in place: the `targets` view
afterwards is the pointwise `Update` of the view before. -/
theorem Simulation.stepUpdate_targets (s : Simulation.Simulation)
    (deltaTime : ℝ) (draws : String → ℕ → ℝ) :
    (s.stepUpdate deltaTime draws).targets =
      s.targets.map fun t => t.Update deltaTime s.bounds (draws t.id) := by
  have hobj : (s.stepUpdate deltaTime draws).objects =
      s.objects.map fun o => o.Update deltaTime s.bounds (draws o.GetID) := rfl
  rw [Simulation.Simulation.targets, Simulation.Simulation.targets, hobj]
  induction s.objects with
  | nil => rfl
  | cons o rest ih =>
    cases o with
    | sensor sen =>
      simpa [Simulation.SimulationObject.Update,
        Simulation.SimulationObject.asTarget] using ih
    | target tar =>
      simpa [Simulation.SimulationObject.Update,
        Simulation.SimulationObject.asTarget,
        Simulation.SimulationObject.GetID] using ih

/-- The per-target localization fold never touches entries of ids not
in the processed list. -/
theorem Simulation.localize_foldl_notmem (dimension : ℕ)
    (sensors : List Simulation.Sensor) (l : List Simulation.Target)
    (acc : (String → Option Multilateration.Solution) × (String → Option ℝ))
    (id : String) (hid : id ∉ l.map Simulation.Target.id) :
    (l.foldl (Simulation.localizeTarget dimension sensors) acc).1 id =
      acc.1 id ∧
    (l.foldl (Simulation.localizeTarget dimension sensors) acc).2 id =
      acc.2 id := by
  induction l generalizing acc with
  | nil => exact ⟨rfl, rfl⟩
  | cons u rest ih =>
    simp only [List.map_cons, List.mem_cons, not_or] at hid
    rw [List.foldl_cons]
    have := ih (Simulation.localizeTarget dimension sensors acc u) hid.2
    rw [this.1, this.2]
    constructor
    · show Simulation.mapSet acc.1 u.id _ id = acc.1 id
      rw [Simulation.mapSet, if_neg hid.1]
    · show Simulation.mapSet acc.2 u.id _ id = acc.2 id
      rw [Simulation.mapSet, if_neg hid.1]

/-- With pairwise-distinct target ids, the localization fold stores
exactly the target's own outcome pair under its id. -/
theorem Simulation.localize_foldl_mem (dimension : ℕ)
    (sensors : List Simulation.Sensor) (l : List Simulation.Target)
    (acc : (String → Option Multilateration.Solution) × (String → Option ℝ))
    (t : Simulation.Target) (ht : t ∈ l)
    (hnodup : (l.map Simulation.Target.id).Nodup) :
    (l.foldl (Simulation.localizeTarget dimension sensors) acc).1 t.id =
      some (Simulation.targetOutcome dimension sensors t).1 ∧
    (l.foldl (Simulation.localizeTarget dimension sensors) acc).2 t.id =
      some (Simulation.targetOutcome dimension sensors t).2 := by
  induction l generalizing acc with
  | nil => exact absurd ht (List.not_mem_nil t)
  | cons u rest ih =>
    rw [List.foldl_cons]
    have hcons := hnodup
    rw [List.map_cons] at hcons
    have hparts := List.nodup_cons.mp hcons
    rcases List.mem_cons.mp ht with rfl | htr
    · have hskip := Simulation.localize_foldl_notmem dimension sensors rest
        (Simulation.localizeTarget dimension sensors acc t) t.id hparts.1
      rw [hskip.1, hskip.2]
      constructor
      · show Simulation.mapSet acc.1 t.id _ t.id = _
        rw [Simulation.mapSet, if_pos rfl]
      · show Simulation.mapSet acc.2 t.id _ t.id = _
        rw [Simulation.mapSet, if_pos rfl]
    · exact ih _ htr hparts.2

/-- A successful `SolveLeastSquares` always returns a non-nil position
of exactly `dimension` coordinates. -/
theorem Multilateration.solve_success_position
    (measurements : List Multilateration.Measurement) (dimension : ℕ)
    (sol : Multilateration.Solution)
    (h : Multilateration.SolveLeastSquares measurements dimension =
      (sol, none)) :
    ∃ l, sol.position = some l ∧ l.length = dimension := by
  rw [Multilateration.SolveLeastSquares] at h
  split_ifs at h with h1 h2 h3 <;> rw [Prod.mk.injEq] at h <;>
    first
      | exact Option.noConfusion h.2
      | exact ⟨_, by rw [← h.1], List.length_ofFn _⟩

/-- `CalculateLocalizationError` on two non-empty vectors of the same
length returns a non-negative distance. -/
theorem Multilateration.calculateLocalizationError_some
    (t e : Common.Vec) (hlen : t.length = e.length) (hne : t.length ≠ 0) :
    ∃ d, Multilateration.CalculateLocalizationError (some t) (some e) =
      some d ∧ 0 ≤ d := by
  rw [Multilateration.CalculateLocalizationError]
  rw [if_neg (by omega)]
  rw [Common.Distance, if_pos hlen]
  exact ⟨_, rfl, Real.sqrt_nonneg _⟩

/-- The outcome pair `Step` stores for one target is either a solution
with a position vector together with a non-negative localization error,
or the sentinel pair. -/
theorem Simulation.targetOutcome_sync (dimension : ℕ)
    (sensors : List Simulation.Sensor) (tar : Simulation.Target)
    (hdim : 1 ≤ dimension) (hlen : tar.position.length = dimension) :
    (∃ p, (Simulation.targetOutcome dimension sensors tar).1.position =
        some p ∧ 0 ≤ (Simulation.targetOutcome dimension sensors tar).2) ∨
    Simulation.targetOutcome dimension sensors tar =
      (Multilateration.sentinelSolution, -1) := by
  rw [Simulation.targetOutcome.eq_def]
  split_ifs with hcount
  · rcases hsolve : Multilateration.SolveLeastSquares
        (Simulation.collectMeasurements sensors tar) dimension with ⟨sol, err⟩
    cases err with
    | none =>
      obtain ⟨l, hl, hllen⟩ := Multilateration.solve_success_position _ _ _
        hsolve
      obtain ⟨d, hd, hdge⟩ := Multilateration.calculateLocalizationError_some
        (Common.Clone tar.position) l
        (by rw [Common.Clone, hlen, hllen]) (by rw [Common.Clone]; omega)
      left
      dsimp only
      rw [hl, hd]
      exact ⟨l, rfl, hdge⟩
    | some e =>
      right
      dsimp only
  · right
    rfl

/-- C4: after every `Step`, every registered target's stored
last-estimate and last-error are in sync: either the estimate has a
non-none position and the stored error is a distance ≥ 0, or the
estimate is the sentinel `Solution{position: none, residualError: -1}`
together with the error `-1`.  Assumes the engine invariants that
`AddObject` maintains: dimension ≥ 1, every target's position has the
engine dimension, and target ids are pairwise distinct. -/
theorem C4_step_estimate_error_in_sync (s : Simulation.Simulation)
    (deltaTime : ℝ) (draws : String → ℕ → ℝ) (hdim : 1 ≤ s.dimension)
    (hlen : ∀ t ∈ s.targets, t.position.length = s.dimension)
    (hnodup : (s.targets.map Simulation.Target.id).Nodup) :
    ∀ t ∈ (s.Step deltaTime draws).targets,
      (∃ sol p e,
        (s.Step deltaTime draws).GetLastEstimate t.id = some sol ∧
        sol.position = some p ∧
        (s.Step deltaTime draws).GetLastLocalizationError t.id = some e ∧
        0 ≤ e) ∨
      ((s.Step deltaTime draws).GetLastEstimate t.id =
          some Multilateration.sentinelSolution ∧
        (s.Step deltaTime draws).GetLastLocalizationError t.id =
          some (-1)) := by
  intro t ht
  have ht1 : t ∈ (s.stepUpdate deltaTime draws).targets := ht
  have hids : (s.stepUpdate deltaTime draws).targets.map
      Simulation.Target.id = s.targets.map Simulation.Target.id := by
    rw [Simulation.stepUpdate_targets, List.map_map]
    congr 1
    funext u
    exact Simulation.Target.Update_id u deltaTime s.bounds (draws u.id)
  have hnodup2 : ((s.stepUpdate deltaTime draws).targets.map
      Simulation.Target.id).Nodup := by
    rw [hids]
    exact hnodup
  have hfold := Simulation.localize_foldl_mem s.dimension
    (s.stepUpdate deltaTime draws).sensors
    (s.stepUpdate deltaTime draws).targets (s.lastEstimates, s.lastErrors)
    t ht1 hnodup2
  have hest : (s.Step deltaTime draws).GetLastEstimate t.id =
      some (Simulation.targetOutcome s.dimension
        (s.stepUpdate deltaTime draws).sensors t).1 := hfold.1
  have herr : (s.Step deltaTime draws).GetLastLocalizationError t.id =
      some (Simulation.targetOutcome s.dimension
        (s.stepUpdate deltaTime draws).sensors t).2 := hfold.2
  have hlent : t.position.length = s.dimension := by
    rw [Simulation.stepUpdate_targets] at ht1
    obtain ⟨t0, ht0, rfl⟩ := List.mem_map.mp ht1
    rw [Simulation.Target.Update_position_length]
    exact hlen t0 ht0
  rcases Simulation.targetOutcome_sync s.dimension
      (s.stepUpdate deltaTime draws).sensors t hdim hlent with
    ⟨p, hp, hge⟩ | hsent
  · exact Or.inl ⟨_, p, _, hest, hp, herr, hge⟩
  · rw [hsent] at hest herr
    exact Or.inr ⟨hest, herr⟩

/-- C5: in any `Step` during which a target collects fewer than `D+1`
in-range measurements, the engine stores the sentinel pair
`(Solution{position: none, residualError: -1}, -1)` for that target —
the branch that does so never calls the solver — overwriting whatever
was stored before, for an arbitrary prior engine state. -/
theorem C5_step_insufficient_sentinel (s : Simulation.Simulation)
    (deltaTime : ℝ) (draws : String → ℕ → ℝ)
    (hnodup : (s.targets.map Simulation.Target.id).Nodup)
    (t : Simulation.Target) (ht : t ∈ (s.Step deltaTime draws).targets)
    (hcount : (Simulation.collectMeasurements s.sensors t).length <
      s.dimension + 1) :
    (s.Step deltaTime draws).GetLastEstimate t.id =
      some Multilateration.sentinelSolution ∧
    (s.Step deltaTime draws).GetLastLocalizationError t.id = some (-1) := by
  have ht1 : t ∈ (s.stepUpdate deltaTime draws).targets := ht
  have hids : (s.stepUpdate deltaTime draws).targets.map
      Simulation.Target.id = s.targets.map Simulation.Target.id := by
    rw [Simulation.stepUpdate_targets, List.map_map]
    congr 1
    funext u
    exact Simulation.Target.Update_id u deltaTime s.bounds (draws u.id)
  have hnodup2 : ((s.stepUpdate deltaTime draws).targets.map
      Simulation.Target.id).Nodup := by
    rw [hids]
    exact hnodup
  have hfold := Simulation.localize_foldl_mem s.dimension
    (s.stepUpdate deltaTime draws).sensors
    (s.stepUpdate deltaTime draws).targets (s.lastEstimates, s.lastErrors)
    t ht1 hnodup2
  have hout : Simulation.targetOutcome s.dimension
      (s.stepUpdate deltaTime draws).sensors t =
      (Multilateration.sentinelSolution, -1) := by
    rw [Simulation.targetOutcome.eq_def]
    rw [Simulation.stepUpdate_sensors]
    rw [if_neg (not_le.mpr hcount)]
  have hest : (s.Step deltaTime draws).GetLastEstimate t.id =
      some (Simulation.targetOutcome s.dimension
        (s.stepUpdate deltaTime draws).sensors t).1 := hfold.1
  have herr : (s.Step deltaTime draws).GetLastLocalizationError t.id =
      some (Simulation.targetOutcome s.dimension
        (s.stepUpdate deltaTime draws).sensors t).2 := hfold.2
  rw [hout] at hest herr
  exact ⟨hest, herr⟩

/-- Witness for C4: stepping the one-target engine (no sensors, so the
sentinel branch is taken) keeps the tables in sync. -/
theorem C4_step_estimate_error_in_sync_witness :
    (1 ≤ witnessSim.dimension) ∧
    (∀ t ∈ witnessSim.targets, t.position.length = witnessSim.dimension) ∧
    ((witnessSim.targets.map Simulation.Target.id).Nodup) ∧
    (∀ t ∈ (witnessSim.Step 0 witnessStepDraws).targets,
      (∃ sol p e,
        (witnessSim.Step 0 witnessStepDraws).GetLastEstimate t.id =
          some sol ∧
        sol.position = some p ∧
        (witnessSim.Step 0 witnessStepDraws).GetLastLocalizationError t.id =
          some e ∧ 0 ≤ e) ∨
      ((witnessSim.Step 0 witnessStepDraws).GetLastEstimate t.id =
          some Multilateration.sentinelSolution ∧
        (witnessSim.Step 0 witnessStepDraws).GetLastLocalizationError t.id =
          some (-1))) := by
  have h1 : 1 ≤ witnessSim.dimension := le_refl 1
  have h2 : ∀ t ∈ witnessSim.targets,
      t.position.length = witnessSim.dimension := by
    intro t ht
    have heq : t = (⟨"t", [5], [0]⟩ : Simulation.Target) := by
      simpa [witnessSim, Simulation.Simulation.targets,
        Simulation.SimulationObject.asTarget, List.filterMap] using ht
    rw [heq]
    rfl
  have h3 : (witnessSim.targets.map Simulation.Target.id).Nodup := by
    simp [witnessSim, Simulation.Simulation.targets,
      Simulation.SimulationObject.asTarget, List.filterMap]
  exact ⟨h1, h2, h3,
    C4_step_estimate_error_in_sync witnessSim 0 witnessStepDraws h1 h2 h3⟩

/-- Witness for C5: the stepped target of the sensorless engine
collects 0 < 2 measurements, and its table entries are the sentinel
pair afterwards. -/
theorem C5_step_insufficient_sentinel_witness :
    ((witnessSim.targets.map Simulation.Target.id).Nodup) ∧
    ((Simulation.Target.mk "t" [5] [0]).Update 0 witnessSim.bounds
        (witnessStepDraws "t") ∈
      (witnessSim.Step 0 witnessStepDraws).targets) ∧
    ((Simulation.collectMeasurements witnessSim.sensors
        ((Simulation.Target.mk "t" [5] [0]).Update 0 witnessSim.bounds
          (witnessStepDraws "t"))).length < witnessSim.dimension + 1) ∧
    ((witnessSim.Step 0 witnessStepDraws).GetLastEstimate
        ((Simulation.Target.mk "t" [5] [0]).Update 0 witnessSim.bounds
          (witnessStepDraws "t")).id =
      some Multilateration.sentinelSolution ∧
    (witnessSim.Step 0 witnessStepDraws).GetLastLocalizationError
        ((Simulation.Target.mk "t" [5] [0]).Update 0 witnessSim.bounds
          (witnessStepDraws "t")).id = some (-1)) := by
  have h1 : (witnessSim.targets.map Simulation.Target.id).Nodup := by
    simp [witnessSim, Simulation.Simulation.targets,
      Simulation.SimulationObject.asTarget, List.filterMap]
  have h2 : (Simulation.Target.mk "t" [5] [0]).Update 0 witnessSim.bounds
      (witnessStepDraws "t") ∈
      (witnessSim.Step 0 witnessStepDraws).targets := by
    have hts : (witnessSim.Step 0 witnessStepDraws).targets =
        [(Simulation.Target.mk "t" [5] [0]).Update 0 witnessSim.bounds
          (witnessStepDraws "t")] := by
      show (witnessSim.stepUpdate 0 witnessStepDraws).targets = _
      rw [Simulation.stepUpdate_targets]
      rfl
    rw [hts]
    exact List.mem_singleton.mpr rfl
  have h3 : (Simulation.collectMeasurements witnessSim.sensors
      ((Simulation.Target.mk "t" [5] [0]).Update 0 witnessSim.bounds
        (witnessStepDraws "t"))).length < witnessSim.dimension + 1 := by
    show (Simulation.collectMeasurements [] _).length < 2
    rw [Simulation.collectMeasurements]
    simp
  exact ⟨h1, h2, h3,
    C5_step_insufficient_sentinel witnessSim 0 witnessStepDraws h1 _ h2 h3⟩
